import Mathlib

/-!
Shallow embedding of the dto-mapper library (package `dto`).

The repository contains two near-duplicate variants of the engine:
`dto.go` (composite-kind guard before direct assignment, `ErrNoValidMapping`)
and an unnamed variant (`dto` struct-tag "ignore" handling in
`collectStructFields`, `NoValidMappingError`, no composite guard).
The dispatcher embedded below follows `dto.go`; the tagged field collector
of the unnamed variant is embedded separately as
`collectStructFieldsTagged`.

Go's reflection universe is embedded as an inductive type `Ty` of type
descriptors and an inductive type `Val` of runtime values.  Machine
integers are `Int` with explicit wrapping where a conversion narrows.
Reflect panics (which only arise from ill-kinded internal calls that the
dispatcher's own kind guards rule out) surface as the `MapErr.goPanic`
error; the unbounded Go recursion is driven by an explicit fuel counter,
with `MapErr.outOfFuel` reported when it runs out (the spec notes the Go
recursion is depth-unbounded).
-/

namespace Dto

-- Type descriptors: the shape/identity view of Go types used by the
-- mapper.  `Fields` is a list of struct fields, each carrying the field
-- name, the optional `dto` struct tag, the anonymous (embedded) flag and
-- the field type, in declaration order.
mutual

inductive Ty where
  | tint : Ty
  | tint32 : Ty
  | tstr : Ty
  | tptr (elem : Ty) : Ty
  | tslice (elem : Ty) : Ty
  | tmap (key elem : Ty) : Ty
  | tstruct (name : String) (fields : Fields) : Ty
  deriving DecidableEq

inductive Fields where
  | fnil : Fields
  | fcons (name : String) (tag : Option String) (anon : Bool) (ty : Ty) (rest : Fields) : Fields
  deriving DecidableEq

end

/-- Kinds, mirroring the `reflect.Kind` values the source dispatches on. -/
inductive Kind where
  | intK | int32K | strK | ptrK | structK | sliceK | mapK
  deriving DecidableEq

/-- Kind of a type descriptor (`reflect.Type.Kind`). -/
def Ty.kind : Ty → Kind
  | .tint => .intK
  | .tint32 => .int32K
  | .tstr => .strK
  | .tptr _ => .ptrK
  | .tslice _ => .sliceK
  | .tmap _ _ => .mapK
  | .tstruct _ _ => .structK

/-- isCompositeKind returns true if this type contains other types
(is composite); from `dto.go`. -/
def isCompositeKind : Kind → Bool
  | .structK => true
  | .sliceK => true
  | .mapK => true
  | _ => false

/-- Runtime values (the embedding of `reflect.Value`).  A pointer value
carries its pointee type and an optional pointee (none = nil pointer); a
struct value carries its type's name and field list together with the
field values in declaration order; a map value carries its entry list in
iteration order (the embedding determinizes Go's unspecified map
iteration order to the entry-list order). -/
inductive Val where
  | vint (n : Int) : Val
  | vint32 (n : Int) : Val
  | vstr (s : String) : Val
  | vptr (elem : Ty) (pointee : Option Val) : Val
  | vstruct (name : String) (fields : Fields) (vals : List Val) : Val
  | vslice (elem : Ty) (elems : List Val) : Val
  | vmap (key elem : Ty) (entries : List (Val × Val)) : Val

-- Structural equality of runtime values (Go map keys compare with `==`).
mutual

def valBeq : Val → Val → Bool
  | .vint a, .vint b => a == b
  | .vint32 a, .vint32 b => a == b
  | .vstr a, .vstr b => a == b
  | .vptr t p, .vptr t' p' => t == t' && optValBeq p p'
  | .vstruct n f vs, .vstruct n' f' vs' => n == n' && f == f' && listValBeq vs vs'
  | .vslice t es, .vslice t' es' => t == t' && listValBeq es es'
  | .vmap k v es, .vmap k' v' es' => k == k' && v == v' && entriesBeq es es'
  | _, _ => false

def optValBeq : Option Val → Option Val → Bool
  | none, none => true
  | some a, some b => valBeq a b
  | _, _ => false

def listValBeq : List Val → List Val → Bool
  | [], [] => true
  | a :: as, b :: bs => valBeq a b && listValBeq as bs
  | _, _ => false

def entriesBeq : List (Val × Val) → List (Val × Val) → Bool
  | [], [] => true
  | (k, v) :: as, (k', v') :: bs => valBeq k k' && valBeq v v' && entriesBeq as bs
  | _, _ => false

end

instance : BEq Val := ⟨valBeq⟩

/-- Type descriptor of a value (`reflect.Value.Type`). -/
def tyOf : Val → Ty
  | .vint _ => .tint
  | .vint32 _ => .tint32
  | .vstr _ => .tstr
  | .vptr t _ => .tptr t
  | .vstruct n fs _ => .tstruct n fs
  | .vslice t _ => .tslice t
  | .vmap k v _ => .tmap k v

-- Zero value of a type (`reflect.New(t).Elem()` / `reflect.Zero`).
mutual

def zeroVal : Ty → Val
  | .tint => .vint 0
  | .tint32 => .vint32 0
  | .tstr => .vstr ""
  | .tptr t => .vptr t none
  | .tslice t => .vslice t []
  | .tmap k v => .vmap k v []
  | .tstruct n fs => .vstruct n fs (zeroFields fs)

def zeroFields : Fields → List Val
  | .fnil => []
  | .fcons _ _ _ ty rest => zeroVal ty :: zeroFields rest

end

/-- Numeric types among the embedded type descriptors. -/
def isNumeric : Ty → Bool
  | .tint => true
  | .tint32 => true
  | _ => false

/-- Direct assignability (`reflect.Type.AssignableTo`): for the embedded
universe of (named) types this is type identity. -/
def assignableTo (a b : Ty) : Bool := a == b

/-- Convertibility (`reflect.Type.ConvertibleTo`) for the embedded
types: identity, or a numeric-to-numeric conversion.  As in Go, string
is NOT convertible to int.  Go additionally allows the int-to-string
rune conversion; that pair is omitted from the embedded relation (no
claim depends on an int source with a string destination). -/
def convertibleTo (a b : Ty) : Bool := a == b || (isNumeric a && isNumeric b)

/-- Wrap an integer into the int32 range (two's complement), the effect
of `reflect.Value.Convert` to a 32-bit type. -/
def wrap32 (n : Int) : Int := (n + 2 ^ 31) % 2 ^ 32 - 2 ^ 31

/-- Conversion of a value to a convertible type
(`reflect.Value.Convert`); identity conversions keep the value. -/
def convertVal (v : Val) (t : Ty) : Val :=
  match v, t with
  | .vint n, .tint32 => .vint32 (wrap32 n)
  | .vint32 n, .tint => .vint n
  | v, _ => v

/-- Paths of field indices addressing a (possibly embedded) struct
field; the embedding of an addressable `reflect.Value` obtained by
repeated `Field(i)`. -/
abbrev Path := List Nat

/-- Read the subvalue a field path addresses.  Paths produced by the
field collector on a value's own field list are always valid; the
fallback arms are never hit by the dispatcher. -/
def getPath : Val → List Nat → Val
  | v, [] => v
  | .vstruct _ _ vs, i :: rest => getPath (vs.getD i (.vint 0)) rest
  | v, _ :: _ => v

/-- Write through a field path (mutation of the addressable
`reflect.Value` a collected field refers to). -/
def setPath : Val → List Nat → Val → Val
  | _, [], nv => nv
  | .vstruct n fs vs, i :: rest, nv =>
      .vstruct n fs (vs.set i (setPath (vs.getD i (.vint 0)) rest nv))
  | v, _ :: _, _ => v

/-- structValueMap: name-to-field map; the embedding stores field paths
(references into the struct) keyed by name. -/
abbrev SVM := List (String × List Nat)

/-- Insertion `fields[name] = value` into a structValueMap: overwrite
the existing entry in place, else append. -/
def svmInsert (m : SVM) (k : String) (p : List Nat) : SVM :=
  match m with
  | [] => [(k, p)]
  | (k', p') :: rest =>
      if k' = k then (k, p) :: rest else (k', p') :: svmInsert rest k p

/-- Lookup `fields[name]` in a structValueMap. -/
def svmLookup (m : SVM) (k : String) : Option (List Nat) :=
  match m with
  | [] => none
  | (k', p) :: rest => if k' = k then some p else svmLookup rest k

/-- Collect all struct fields (including anonymous) into a
structValueMap; from `dto.go` (the variant without struct-tag
handling).  `i` is the running field index, `pre` the path prefix of
the struct being walked, `acc` the mutable map being filled.  An
anonymous field is recursed into when it is a struct; `reflect`'s
`NumField` would panic on an anonymous non-struct field, which the
embedding does not model (no claim exercises it). -/
def collectStructFields (i : Nat) (flds : Fields) (pre : List Nat) (acc : SVM) : SVM :=
  match flds with
  | .fnil => acc
  | .fcons n _tag anon ty rest =>
      if anon then
        match ty with
        | .tstruct _ inner =>
            collectStructFields (i + 1) rest pre
              (collectStructFields 0 inner (pre ++ [i]) acc)
        | _ => collectStructFields (i + 1) rest pre acc
      else collectStructFields (i + 1) rest pre (svmInsert acc n (pre ++ [i]))
termination_by structural flds

/-- strings.Contains: substring containment. -/
def stringContains (s sub : String) : Bool :=
  (s.toList.tails).any (fun t => sub.toList.isPrefixOf t)

/-- structTag from the unnamed variant. -/
def structTag : String := "dto"

/-- Whether a field is skipped by the unnamed variant's tag check:
`tags, ok := Tag.Lookup("dto"); ok && strings.Contains(tags, "ignore")`. -/
def tagIgnored (tag : Option String) : Bool :=
  match tag with
  | some t => stringContains t "ignore"
  | none => false

/-- Collect all struct fields into a structValueMap; from the unnamed
variant, which first skips any field whose `dto` tag contains the
substring "ignore". -/
def collectStructFieldsTagged (i : Nat) (flds : Fields) (pre : List Nat) (acc : SVM) : SVM :=
  match flds with
  | .fnil => acc
  | .fcons n tag anon ty rest =>
      if tagIgnored tag then collectStructFieldsTagged (i + 1) rest pre acc
      else if anon then
        match ty with
        | .tstruct _ inner =>
            collectStructFieldsTagged (i + 1) rest pre
              (collectStructFieldsTagged 0 inner (pre ++ [i]) acc)
        | _ => collectStructFieldsTagged (i + 1) rest pre acc
      else collectStructFieldsTagged (i + 1) rest pre (svmInsert acc n (pre ++ [i]))
termination_by structural flds

/-- Errors produced during mapping.  `noValidMapping` embeds
`ErrNoValidMapping{ToType, FromType}` (structural equality, as for the
Go struct).  `user` stands for an opaque error returned by a
user-registered function.  `goPanic` marks reflect panics from
ill-kinded internal calls (unreachable through the dispatcher's kind
guards) and `outOfFuel` marks exhaustion of the embedding's explicit
recursion fuel (the Go recursion is unbounded). -/
inductive MapErr where
  | noValidMapping (toTy fromTy : Ty) : MapErr
  | user (msg : String) : MapErr
  | goPanic (msg : String) : MapErr
  | outOfFuel : MapErr
  deriving DecidableEq

/-- errors.As(err, &ErrNoValidMapping\x7b\x7d): the error chain here is
always a single error, so this tests whether the error is an
`ErrNoValidMapping`. -/
def isNoValidMapping : MapErr → Bool
  | .noValidMapping _ _ => true
  | _ => false

/-- convertFuncClosure: the stored wrapper of a registered conversion
function.  The `*Mapper` forwarding argument of the Go closure is
already captured; a closure returns the produced value or an error. -/
def ConvFn := Val → Except MapErr Val

/-- inspectFuncClosure: the stored wrapper of a registered inspection
function.  It receives the destination (by reference: it returns the
possibly mutated destination) and the source value; an error aborts. -/
def InspFn := Val → Val → Val × Option MapErr

/-- Mapper: conversion functions keyed by (source type, destination
type) and inspection function lists keyed by (destination type, source
type or the no-receiver sentinel), the sentinel embedded as `none`.
The nested Go maps are embedded as association lists with unique keys. -/
structure Mapper where
  convFunc : List ((Ty × Ty) × ConvFn)
  postFunc : List ((Ty × Option Ty) × List InspFn)

/-- Lookup `convFunc[fromTy][toTy]`. -/
def lookupConv (m : Mapper) (fromTy toTy : Ty) : Option ConvFn :=
  (m.convFunc.find? (fun e => e.1 == (fromTy, toTy))).map (·.2)

/-- Lookup `postFunc[toTy][recvTy]`, an absent key yielding no
functions. -/
def lookupInsp (m : Mapper) (toTy : Ty) (recvTy : Option Ty) : List InspFn :=
  ((m.postFunc.find? (fun e => e.1 == (toTy, recvTy))).map (·.2)).getD []

/-- HasCustomFuncs returns true if the Mapper has custom functions
defined (`len(convFunc)+len(postFunc) > 0`). -/
def hasCustomFuncs (m : Mapper) : Bool :=
  !m.convFunc.isEmpty || !m.postFunc.isEmpty

/-- Run convert function for (to-from) pair; from `dto.go`.  `none`
embeds Go's `(false, nil)` (no function found); `some (d, e?)` embeds
`(true, err)` together with the destination state: on success the
destination was set to the produced value, on error it is untouched. -/
def runConvFuncs (m : Mapper) (toV fromV : Val) : Option (Val × Option MapErr) :=
  match lookupConv m (tyOf fromV) (tyOf toV) with
  | none => none
  | some f =>
      match f fromV with
      | .error e => some (toV, some e)
      | .ok v => some (v, none)

/-- Run a list of inspection closures in order on the destination,
threading the (mutable) destination through and stopping at the first
error. -/
def runInspList (fns : List InspFn) (dst src : Val) : Val × Option MapErr :=
  match fns with
  | [] => (dst, none)
  | f :: rest =>
      match f dst src with
      | (d, some e) => (d, some e)
      | (d, none) => runInspList rest d src

/-- Run inspect functions for (to-from) pair; from `dto.go`: the group
keyed by the exact source type first, then the group keyed by the
no-receiver sentinel. -/
def runInspectFuncs (m : Mapper) (dst src : Val) : Val × Option MapErr :=
  match runInspList (lookupInsp m (tyOf dst) (some (tyOf src))) dst src with
  | (d, some e) => (d, some e)
  | (d, none) => runInspList (lookupInsp m (tyOf dst) none) d src

/-- Deferred inspection wrapper of `mapValue`: when the primary mapping
returned an error it is propagated with no inspection run; otherwise
the inspect functions post-process the populated destination. -/
def finishInspect (m : Mapper) (src : Val) : Val × Option MapErr → Val × Option MapErr
  | (d, some e) => (d, some e)
  | (d, none) => runInspectFuncs m d src

/-- Loop body shared by the sequence transformers: map each source
element into a fresh zero value of the destination element type, in
order; the first error leaves the failing element's partial state and
the remaining elements at their zero value. -/
def mapSliceLoop (mv : Val → Val → Val × Option MapErr) (dt : Ty) :
    List Val → List Val × Option MapErr
  | [] => ([], none)
  | se :: rest =>
      match mv (zeroVal dt) se with
      | (d, some e) => (d :: rest.map (fun _ => zeroVal dt), some e)
      | (d, none) =>
          match mapSliceLoop mv dt rest with
          | (ds, e?) => (d :: ds, e?)

/-- Map slices; from `dto.go` (`mapSlice`): allocate a destination
slice of the source's length (discarding the prior contents) and map
the elements position by position. -/
def mapSlice (mv : Val → Val → Val × Option MapErr) (dst src : Val) :
    Val × Option MapErr :=
  match dst, src with
  | .vslice dt _, .vslice _ ses =>
      match mapSliceLoop mv dt ses with
      | (ds, e?) => (.vslice dt ds, e?)
  | d, _ => (d, some (.goPanic "mapSlice"))

/-- Element lists of a slice value (`reflect.Value.Len`/`Index`); the
fallback arm stands for the reflect panic on non-slices. -/
def sliceElems : Val → List Val
  | .vslice _ es => es
  | _ => []

/-- SetMapIndex: insert under a key, overwriting an equal key. -/
def mapInsert (entries : List (Val × Val)) (k v : Val) : List (Val × Val) :=
  match entries with
  | [] => [(k, v)]
  | (k', v') :: rest =>
      if valBeq k' k then (k, v) :: rest else (k', v') :: mapInsert rest k v

/-- Loop of `mapMap`: map each entry's key and value into fresh zero
values and insert under the mapped key; the first error aborts with the
entries inserted so far. -/
def mapMapLoop (mv : Val → Val → Val × Option MapErr) (dk dv : Ty)
    (acc : List (Val × Val)) : List (Val × Val) → List (Val × Val) × Option MapErr
  | [] => (acc, none)
  | (k, v) :: rest =>
      match mv (zeroVal dk) k with
      | (_, some e) => (acc, some e)
      | (k', none) =>
          match mv (zeroVal dv) v with
          | (_, some e) => (acc, some e)
          | (v', none) => mapMapLoop mv dk dv (mapInsert acc k' v') rest

/-- Map maps; from `dto.go` (`mapMap`): allocate a fresh destination
map and map every entry. -/
def mapMap (mv : Val → Val → Val × Option MapErr) (dst src : Val) :
    Val × Option MapErr :=
  match dst, src with
  | .vmap dk dv _, .vmap _ _ entries =>
      match mapMapLoop mv dk dv [] entries with
      | (es, e?) => (.vmap dk dv es, e?)
  | d, _ => (d, some (.goPanic "mapMap"))

/-- Loop of `mapStructs`: for every destination field name also present
on the source side, map the source field into the destination field
through its path; the first error aborts, keeping the fields mapped so
far. -/
def mapStructsLoop (mv : Val → Val → Val × Option MapErr) (srcV : Val)
    (fromFields : SVM) : List (String × List Nat) → Val → Val × Option MapErr
  | [], d => (d, none)
  | (name, path) :: rest, d =>
      match svmLookup fromFields name with
      | none => mapStructsLoop mv srcV fromFields rest d
      | some spath =>
          match mv (getPath d path) (getPath srcV spath) with
          | (fv, some e) => (setPath d path fv, some e)
          | (fv, none) => mapStructsLoop mv srcV fromFields rest (setPath d path fv)

/-- Map structs; from `dto.go` (`mapStructs`): collect both field maps
and map the name-matched fields. -/
def mapStructs (mv : Val → Val → Val × Option MapErr) (dst src : Val) :
    Val × Option MapErr :=
  match dst, src with
  | .vstruct dn df dvs, .vstruct sn sf svs =>
      mapStructsLoop mv (.vstruct sn sf svs)
        (collectStructFields 0 sf [] [])
        (collectStructFields 0 df [] [])
        (.vstruct dn df dvs)
  | d, _ => (d, some (.goPanic "mapStructs"))

/-- Map map values to slice; from `dto.go` (`mapMapToSlice`): allocate
a destination slice of the map's cardinality and map the entry values
(keys discarded) into successive positions, in iteration order. -/
def mapMapToSlice (mv : Val → Val → Val × Option MapErr) (dst src : Val) :
    Val × Option MapErr :=
  match dst, src with
  | .vslice dt _, .vmap _ _ entries =>
      match mapSliceLoop mv dt (entries.map (·.2)) with
      | (ds, e?) => (.vslice dt ds, e?)
  | d, _ => (d, some (.goPanic "mapMapToSlice"))

/-- Map a map of slices to slice; from `dto.go`
(`mapMapSlicesToSlice`): allocate a destination slice of the summed
inner lengths and map every inner element, in map-iteration order then
inner-sequence order. -/
def mapMapSlicesToSlice (mv : Val → Val → Val × Option MapErr) (dst src : Val) :
    Val × Option MapErr :=
  match dst, src with
  | .vslice dt _, .vmap _ _ entries =>
      match mapSliceLoop mv dt (entries.map (fun kv => sliceElems kv.2)).flatten with
      | (ds, e?) => (.vslice dt ds, e?)
  | d, _ => (d, some (.goPanic "mapMapSlicesToSlice"))

/-- Steps 4-9 of `mapValue` (`dto.go`): pointer unwrapping on either
side, the composite transformers, the map-to-slice fallback pair, and
the final no-valid-mapping failure.  `mv` is the recursive call. -/
def dispatchTail (mv : Val → Val → Val × Option MapErr) (dst src : Val) :
    Val × Option MapErr :=
  match dst, src with
  | d, .vptr _ none => (d, none)
  | d, .vptr _ (some v) => mv d v
  | .vptr t p, s =>
      match mv (match p with | none => zeroVal t | some v => v) s with
      | (d, e?) => (.vptr t (some d), e?)
  | .vstruct dn df dvs, .vstruct sn sf svs =>
      mapStructs mv (.vstruct dn df dvs) (.vstruct sn sf svs)
  | .vslice dt des, .vslice st ses =>
      mapSlice mv (.vslice dt des) (.vslice st ses)
  | .vmap dk dv des, .vmap sk sv ses =>
      mapMap mv (.vmap dk dv des) (.vmap sk sv ses)
  | .vslice dt des, .vmap sk st ses =>
      match mapMapToSlice mv (.vslice dt des) (.vmap sk st ses) with
      | (d1, none) => (d1, none)
      | (d1, some e) =>
          if isNoValidMapping e && (Ty.kind st == Kind.sliceK) then
            match mapMapSlicesToSlice mv d1 (.vmap sk st ses) with
            | (d2, none) => (d2, none)
            | (d2, some _) => (d2, some e)
          else (d1, some e)
  | d, s => (d, some (.noValidMapping (tyOf d) (tyOf s)))

/-- Steps 1-9 of `mapValue` (`dto.go`) before the deferred inspection:
conversion-function lookup, then the conditionally guarded direct
assignment and implicit conversion, then `dispatchTail`. -/
def mapValuePrimary (mv : Val → Val → Val × Option MapErr) (m : Mapper)
    (dst src : Val) : Val × Option MapErr :=
  match runConvFuncs m dst src with
  | some r => r
  | none =>
      if !hasCustomFuncs m || !isCompositeKind (Ty.kind (tyOf src)) then
        if assignableTo (tyOf src) (tyOf dst) then (src, none)
        else if convertibleTo (tyOf src) (tyOf dst) then
          (convertVal src (tyOf dst), none)
        else dispatchTail mv dst src
      else dispatchTail mv dst src

/-- mapValue from `dto.go`, with explicit recursion fuel.  The result
pairs the destination value after the call (Go mutates the destination
in place, also on error paths) with the optional error. -/
def mapValue (fuel : Nat) (m : Mapper) (dst src : Val) : Val × Option MapErr :=
  match fuel with
  | 0 => (dst, some .outOfFuel)
  | n + 1 => finishInspect m src (mapValuePrimary (mapValue n m) m dst src)

/-- Mapper with no custom functions (the zero `Mapper` value). -/
def emptyMapper : Mapper := ⟨[], []⟩

/-- Declaration-order flattening of a struct's field list: an anonymous
struct field contributes its own flattened fields in place, any other
field contributes its (name, path) pair.  This is the specification-side
description of the field resolver, to be compared with the
accumulator-passing `collectStructFields` from the source. -/
def flatFields (i : Nat) (flds : Fields) (pre : List Nat) : List (String × List Nat) :=
  match flds with
  | .fnil => []
  | .fcons n _tag anon ty rest =>
      (if anon then
        match ty with
        | .tstruct _ inner => flatFields 0 inner (pre ++ [i])
        | _ => []
      else [(n, pre ++ [i])]) ++ flatFields (i + 1) rest pre
termination_by structural flds

/-- Last occurrence of a name in a (name, path) list. -/
def lastFind (l : List (String × List Nat)) (k : String) : Option (List Nat) :=
  (l.reverse.find? (fun p => p.1 == k)).map (·.2)

-- ==================================== lemmas ================================

theorem svmLookup_insert (m : SVM) (k : String) (p : List Nat) (k' : String) :
    svmLookup (svmInsert m k p) k' = if k' = k then some p else svmLookup m k' := by
  induction m with
  | nil =>
      simp only [svmInsert, svmLookup]
      by_cases h : k' = k
      · subst h; simp
      · rw [if_neg (fun hh => h hh.symm), if_neg h]
  | cons hd tl ih =>
      obtain ⟨k0, p0⟩ := hd
      simp only [svmInsert]
      by_cases h0 : k0 = k
      · subst h0
        simp only [if_pos rfl, svmLookup]
        by_cases h1 : k0 = k'
        · rw [if_pos h1, if_pos h1.symm]
        · rw [if_neg h1, if_neg (fun hh => h1 hh.symm), if_neg h1]
      · rw [if_neg h0]
        simp only [svmLookup]
        by_cases h1 : k0 = k'
        · rw [if_pos h1, if_neg (fun hh => h0 (h1.trans hh)), if_pos h1]
        · rw [if_neg h1, ih, if_neg h1]

theorem lastFind_append (a b : List (String × List Nat)) (k : String) :
    lastFind (a ++ b) k =
      match lastFind b k with
      | some p => some p
      | none => lastFind a k := by
  simp only [lastFind, List.reverse_append, List.find?_append]
  cases List.find? (fun p => p.1 == k) b.reverse <;> simp [Option.orElse]

theorem runInspList_append (fs gs : List InspFn) (d s : Val) :
    runInspList (fs ++ gs) d s =
      match runInspList fs d s with
      | (d', some e) => (d', some e)
      | (d', none) => runInspList gs d' s := by
  induction fs generalizing d with
  | nil => simp [runInspList]
  | cons f rest ih =>
      simp only [List.cons_append, runInspList]
      rcases h : f d s with ⟨d1, e?⟩
      cases e? <;> simp [ih]

theorem mapSliceLoop_length (mv : Val → Val → Val × Option MapErr) (dt : Ty)
    (xs : List Val) : (mapSliceLoop mv dt xs).1.length = xs.length := by
  induction xs with
  | nil => simp [mapSliceLoop]
  | cons x rest ih =>
      simp only [mapSliceLoop]
      rcases h : mv (zeroVal dt) x with ⟨d, e?⟩
      cases e? with
      | none =>
          rcases h2 : mapSliceLoop mv dt rest with ⟨ds, e2?⟩
          simp_all
      | some e => simp_all

theorem mapSliceLoop_ok (mv : Val → Val → Val × Option MapErr) (dt : Ty)
    (xs : List Val) (h : ∀ x ∈ xs, (mv (zeroVal dt) x).2 = none) :
    mapSliceLoop mv dt xs = (xs.map (fun x => (mv (zeroVal dt) x).1), none) := by
  induction xs with
  | nil => simp [mapSliceLoop]
  | cons x rest ih =>
      have hx : (mv (zeroVal dt) x).2 = none := h x (by simp)
      simp only [mapSliceLoop]
      rcases hv : mv (zeroVal dt) x with ⟨d, e?⟩
      rw [hv] at hx
      simp only at hx
      subst hx
      rw [ih (fun y hy => h y (by simp [hy]))]
      simp [hv]

theorem mapSliceLoop_err (mv : Val → Val → Val × Option MapErr) (dt : Ty)
    (pre : List Val) (s : Val) (rest : List Val) (d : Val) (e : MapErr)
    (hpre : ∀ x ∈ pre, (mv (zeroVal dt) x).2 = none)
    (hs : mv (zeroVal dt) s = (d, some e)) :
    mapSliceLoop mv dt (pre ++ s :: rest) =
      (pre.map (fun x => (mv (zeroVal dt) x).1) ++ d :: rest.map (fun _ => zeroVal dt),
       some e) := by
  induction pre with
  | nil => simp [mapSliceLoop, hs]
  | cons x xs ih =>
      have hx : (mv (zeroVal dt) x).2 = none := hpre x (by simp)
      rcases hv : mv (zeroVal dt) x with ⟨dv, e?⟩
      rw [hv] at hx
      simp only at hx
      subst hx
      have ihr := ih (fun y hy => hpre y (by simp [hy]))
      simp only [List.cons_append, mapSliceLoop, hv, List.append_eq, ihr]
      simp [hv]

theorem lastFind_singleton (n : String) (p : List Nat) (k : String) :
    lastFind [(n, p)] k = if n == k then some p else none := by
  by_cases h : n = k <;> simp [lastFind, h]

theorem collect_cons_notAnon (i : Nat) (n : String) (tag : Option String) (ty : Ty)
    (rest : Fields) (pre : List Nat) (acc : SVM) :
    collectStructFields i (.fcons n tag false ty rest) pre acc =
      collectStructFields (i + 1) rest pre (svmInsert acc n (pre ++ [i])) := by
  cases ty <;> simp [collectStructFields]

theorem flatFields_cons_notAnon (i : Nat) (n : String) (tag : Option String) (ty : Ty)
    (rest : Fields) (pre : List Nat) :
    flatFields i (.fcons n tag false ty rest) pre =
      (n, pre ++ [i]) :: flatFields (i + 1) rest pre := by
  cases ty <;> simp [flatFields]

theorem lastFind_cons (n : String) (p : List Nat) (l : List (String × List Nat))
    (k : String) :
    lastFind ((n, p) :: l) k =
      match lastFind l k with
      | some q => some q
      | none => if n == k then some p else none := by
  rw [show (n, p) :: l = [(n, p)] ++ l from rfl, lastFind_append, lastFind_singleton]

theorem svmLookup_collect (i : Nat) (flds : Fields) (pre : List Nat) (acc : SVM)
    (k : String) :
    svmLookup (collectStructFields i flds pre acc) k =
      match lastFind (flatFields i flds pre) k with
      | some p => some p
      | none => svmLookup acc k := by
  induction i, flds, pre, acc using collectStructFields.induct with
  | case1 i pre acc =>
      simp [collectStructFields, flatFields, lastFind]
  | case2 i pre acc n1 tag rest nm inner ih2 ih1 =>
      simp only [collectStructFields, flatFields, if_true]
      rw [ih1, ih2, lastFind_append]
      rcases h1 : lastFind (flatFields (i + 1) rest pre) k with _ | p1 <;>
        rcases h2 : lastFind (flatFields 0 inner (pre ++ [i])) k with _ | p2 <;>
          simp [h1, h2]
  | case3 i pre acc n1 tag ty rest hne ih1 =>
      cases ty with
      | tstruct nm inner => exact absurd rfl (hne nm inner)
      | tint =>
          simp only [collectStructFields, flatFields, if_true, List.nil_append]
          exact ih1
      | tint32 =>
          simp only [collectStructFields, flatFields, if_true, List.nil_append]
          exact ih1
      | tstr =>
          simp only [collectStructFields, flatFields, if_true, List.nil_append]
          exact ih1
      | tptr e =>
          simp only [collectStructFields, flatFields, if_true, List.nil_append]
          exact ih1
      | tslice e =>
          simp only [collectStructFields, flatFields, if_true, List.nil_append]
          exact ih1
      | tmap ke ve =>
          simp only [collectStructFields, flatFields, if_true, List.nil_append]
          exact ih1
  | case4 i pre acc n1 tag anon ty rest hanon ih1 =>
      have hb : anon = false := by
        cases anon
        · rfl
        · exact absurd rfl hanon
      subst hb
      rw [collect_cons_notAnon, ih1, flatFields_cons_notAnon, lastFind_cons]
      rcases h1 : lastFind (flatFields (i + 1) rest pre) k with _ | p1
      · simp only [h1]
        rw [svmLookup_insert]
        by_cases h : k = n1
        · subst h
          simp
        · rw [if_neg h, if_neg (by simpa using fun hh : n1 = k => h hh.symm)]
      · simp [h1]

-- ==================================== claims ================================

/-- C1: for every Mapper with a conversion function registered for the
exact (sourceType, destinationType) pair, mapping a value of the source
type into a destination of the destination type invokes that function
and its result (success value or error) is authoritative: no later
dispatch rule (direct assignment, implicit conversion, pointer
unwrapping, composite transformers) is tried, even when the source type
is directly assignable to the destination type. -/
theorem convFuncPrecedence (n : Nat) (m : Mapper) (dst src : Val) (f : ConvFn)
    (h : lookupConv m (tyOf src) (tyOf dst) = some f) :
    mapValue (n + 1) m dst src =
      match f src with
      | .error e => (dst, some e)
      | .ok v => runInspectFuncs m v src := by
  simp only [mapValue, mapValuePrimary, runConvFuncs, h]
  cases f src <;> simp [finishInspect]

/-- Conversion function used by the C1 witness: it ignores its input
and produces 42. -/
def cf42 : ConvFn := fun _ => .ok (.vint 42)

/-- Mapper of the C1 witness: one conversion function for the
(int, int) pair, a pair whose source type is directly assignable to its
destination type. -/
def convMapper42 : Mapper := ⟨[((.tint, .tint), cf42)], []⟩

/-- Witness for C1: the registered (int, int) conversion function
overrides same-type direct assignment (the result is 42, not the source
value 5). -/
theorem convFuncPrecedenceWitness :
    lookupConv convMapper42 .tint .tint = some cf42 ∧
    assignableTo .tint .tint = true ∧
    mapValue 1 convMapper42 (.vint 0) (.vint 5) = (.vint 42, none) := by
  refine ⟨rfl, rfl, ?_⟩
  exact (convFuncPrecedence 0 convMapper42 (.vint 0) (.vint 5) cf42 rfl).trans rfl

/-- C2: when the Mapper has custom functions and the source value's
kind is composite (struct, sequence or map), and no conversion function
matches the pair, the direct assignment and implicit conversion steps
are skipped: dispatch proceeds to the recursive rules even for
identically-typed values.  Conversely, when the Mapper has no custom
functions at all or the source kind is not composite, an assignable
source is assigned directly. -/
theorem directConversionGuard (n : Nat) (m : Mapper) (dst src : Val) :
    (hasCustomFuncs m = true → isCompositeKind (Ty.kind (tyOf src)) = true →
      lookupConv m (tyOf src) (tyOf dst) = none →
      mapValue (n + 1) m dst src =
        finishInspect m src (dispatchTail (mapValue n m) dst src)) ∧
    ((hasCustomFuncs m = false ∨ isCompositeKind (Ty.kind (tyOf src)) = false) →
      lookupConv m (tyOf src) (tyOf dst) = none →
      assignableTo (tyOf src) (tyOf dst) = true →
      mapValue (n + 1) m dst src = finishInspect m src (src, none)) := by
  constructor
  · intro h1 h2 h3
    simp [mapValue, mapValuePrimary, runConvFuncs, h3, h1, h2]
  · intro h1 h2 h3
    rcases h1 with h1 | h1 <;>
      simp [mapValue, mapValuePrimary, runConvFuncs, h2, h1, h3]

/-- Inspection function used by the C2 witness: increments an int
destination. -/
def inspIncr : InspFn := fun d _ =>
  match d with
  | .vint n => (.vint (n + 1), none)
  | v => (v, none)

/-- Mapper of the C2 witness: a single inspection function registered
for int destinations under the no-receiver sentinel. -/
def inspMapper : Mapper := ⟨[], [((.tint, none), [inspIncr])]⟩

/-- Field list of the C2 witness struct type. -/
def fieldsP : Fields := .fcons "A" none false .tint .fnil

/-- Witness for C2: mapping between two identically-typed (hence
directly assignable) struct values of a Mapper with custom functions
walks the struct recursively, so the nested int inspection hook fires on
the field (the result field is 4, not the plainly assigned 3). -/
theorem directConversionGuardWitness :
    hasCustomFuncs inspMapper = true ∧
    isCompositeKind (Ty.kind (tyOf (Val.vstruct "P" fieldsP [.vint 3]))) = true ∧
    assignableTo (.tstruct "P" fieldsP) (.tstruct "P" fieldsP) = true ∧
    mapValue 2 inspMapper (.vstruct "P" fieldsP [.vint 5]) (.vstruct "P" fieldsP [.vint 3]) =
      (.vstruct "P" fieldsP [.vint 4], none) ∧
    mapValue 1 emptyMapper (.vint 0) (.vint 5) = (.vint 5, none) := by
  refine ⟨rfl, rfl, rfl, ?_, ?_⟩
  · exact ((directConversionGuard 1 inspMapper (.vstruct "P" fieldsP [.vint 5])
      (.vstruct "P" fieldsP [.vint 3])).1 rfl rfl rfl).trans rfl
  · exact ((directConversionGuard 0 emptyMapper (.vint 0) (.vint 5)).2
      (Or.inl rfl) rfl rfl).trans rfl

/-- C3: after a mapping step, the inspection functions for the
destination's exact type run in two groups, those keyed to the exact
source type first, then those keyed to the no-receiver sentinel, each
group in registration order over a single chained run (first conjunct);
a chained run stops at the first error, which becomes the result
(second conjunct); a primary mapping error is returned as is, with no
inspection run (third conjunct); and a successful primary mapping hands
the already-populated destination to the inspection functions (fourth
conjunct). -/
theorem inspectionOrderAndAbort (m : Mapper) (dst src : Val) :
    (runInspectFuncs m dst src =
      runInspList
        (lookupInsp m (tyOf dst) (some (tyOf src)) ++ lookupInsp m (tyOf dst) none)
        dst src) ∧
    (∀ fs gs d, runInspList (fs ++ gs) d src =
      match runInspList fs d src with
      | (d', some e) => (d', some e)
      | (d', none) => runInspList gs d' src) ∧
    (∀ n d e, mapValuePrimary (mapValue n m) m dst src = (d, some e) →
      mapValue (n + 1) m dst src = (d, some e)) ∧
    (∀ n d, mapValuePrimary (mapValue n m) m dst src = (d, none) →
      mapValue (n + 1) m dst src = runInspectFuncs m d src) := by
  refine ⟨?_, ?_, ?_, ?_⟩
  · rw [runInspList_append]
    rfl
  · exact fun fs gs d => runInspList_append fs gs d src
  · intro n d e h
    simp [mapValue, h, finishInspect]
  · intro n d h
    simp [mapValue, h, finishInspect]

/-- Witness for C3: a successful primary step hands the populated value
to the inspection runner, and a failed primary step propagates with no
inspection. -/
theorem inspectionOrderAndAbortWitness :
    mapValue 1 emptyMapper (.vint 0) (.vint 7) =
      runInspectFuncs emptyMapper (.vint 7) (.vint 7) ∧
    mapValue 1 emptyMapper (.vint 0) (.vstr "a") =
      (.vint 0, some (.noValidMapping .tint .tstr)) := by
  constructor
  · exact (inspectionOrderAndAbort emptyMapper (.vint 0) (.vint 7)).2.2.2 0 (.vint 7) rfl
  · exact (inspectionOrderAndAbort emptyMapper (.vint 0) (.vstr "a")).2.2.1 0 (.vint 0)
      (.noValidMapping .tint .tstr) rfl

/-- Counterexample for C5: a nil pointer source does not always leave
the destination untouched.  With no custom functions, a nil `*int`
source mapped into a `*int` destination currently holding 5 is handled
by the earlier direct-assignment step (the types are assignable), which
replaces the destination with the nil pointer: the call succeeds but
the destination is changed. -/
theorem ptrSourceNilTouchesDest :
    mapValue 1 emptyMapper (.vptr .tint (some (.vint 5))) (.vptr .tint none) =
      (.vptr .tint none, none) ∧
    Val.vptr .tint none ≠ Val.vptr .tint (some (.vint 5)) := by
  exact ⟨rfl, by simp⟩

/-- C5 (amended): for a pointer-kinded source that actually reaches the
pointer-unwrapping step, that is, when no conversion function is
registered for the pair and the source type is neither assignable nor
convertible to the destination type, the primary mapping of a nil
source succeeds trivially leaving the destination untouched, and a
present source recurses with the pointee as the new source and the same
destination. -/
theorem ptrSourceDispatch (n : Nat) (m : Mapper) (dst : Val) (t : Ty)
    (p : Option Val)
    (hconv : lookupConv m (.tptr t) (tyOf dst) = none)
    (hassign : assignableTo (.tptr t) (tyOf dst) = false)
    (hconvert : convertibleTo (.tptr t) (tyOf dst) = false) :
    mapValuePrimary (mapValue n m) m dst (.vptr t p) =
      match p with
      | none => (dst, none)
      | some v => mapValue n m dst v := by
  cases dst <;> cases p <;>
    simp_all [mapValuePrimary, runConvFuncs, tyOf, dispatchTail, isCompositeKind,
      Ty.kind]

/-- Witness for C5 (amended): a nil `*int` source mapped into an `int`
destination (a non-assignable, non-convertible pair) leaves the
destination untouched with no error; a present `*int` source
dereferences and maps the pointee. -/
theorem ptrSourceDispatchWitness :
    mapValuePrimary (mapValue 1 emptyMapper) emptyMapper (.vint 3) (.vptr .tint none) =
      (.vint 3, none) ∧
    mapValuePrimary (mapValue 1 emptyMapper) emptyMapper (.vint 3)
      (.vptr .tint (some (.vint 9))) = (.vint 9, none) := by
  constructor
  · exact ptrSourceDispatch 1 emptyMapper (.vint 3) .tint none rfl rfl rfl
  · exact (ptrSourceDispatch 1 emptyMapper (.vint 3) .tint (some (.vint 9))
      rfl rfl rfl).trans rfl

/-- C8: for every Mapper with no conversion function registered for the
(string, int) pair, mapping a string-typed value into an int-typed
destination fails with the no-valid-mapping error carrying exactly
(int, string) as its (destination, source) descriptor pair, and
equality on that error is structural: it equals another
no-valid-mapping error exactly when the descriptor pairs agree. -/
theorem stringToIntNoValidMapping (n : Nat) (m : Mapper) (d s : Val)
    (hd : tyOf d = .tint) (hs : tyOf s = .tstr)
    (hconv : lookupConv m .tstr .tint = none) :
    mapValue (n + 1) m d s = (d, some (.noValidMapping .tint .tstr)) ∧
    (∀ t f, (MapErr.noValidMapping .tint .tstr = MapErr.noValidMapping t f) ↔
      (t = .tint ∧ f = .tstr)) := by
  constructor
  · cases d <;> simp [tyOf] at hd
    cases s <;> simp [tyOf] at hs
    simp [mapValue, mapValuePrimary, runConvFuncs, tyOf, hconv, dispatchTail,
      finishInspect, assignableTo, convertibleTo, isNumeric, isCompositeKind,
      Ty.kind]
  · intro t f
    constructor
    · intro h
      injection h with h1 h2
      exact ⟨h1.symm, h2.symm⟩
    · rintro ⟨rfl, rfl⟩
      rfl

/-- Witness for C8: with the empty Mapper, mapping the string "x" into
an int destination yields the no-valid-mapping error with pair
(int, string). -/
theorem stringToIntNoValidMappingWitness :
    mapValue 1 emptyMapper (.vint 0) (.vstr "x") =
      (.vint 0, some (.noValidMapping .tint .tstr)) := by
  exact (stringToIntNoValidMapping 0 emptyMapper (.vint 0) (.vstr "x")
    rfl rfl rfl).1

/-- C9: the "ignore" annotation of the tagged field collector (unnamed
engine variant) is matched by substring containment, not by exact
token: every field whose `dto` tag value contains the substring
"ignore" anywhere is skipped entirely, contributing nothing to the
field map and not being recursed into. -/
theorem tagIgnoreSubstring (t : String) (h : stringContains t "ignore" = true)
    (i : Nat) (n : String) (anon : Bool) (ty : Ty) (rest : Fields)
    (pre : List Nat) (acc : SVM) :
    collectStructFieldsTagged i (.fcons n (some t) anon ty rest) pre acc =
      collectStructFieldsTagged (i + 1) rest pre acc := by
  rw [collectStructFieldsTagged.eq_def]
  simp [tagIgnored, h]

/-- Witness for C9: a field tagged `dto:"noignore"` is skipped (the tag
contains "ignore" as a substring although it is not the exact token),
so a struct with only that field resolves to an empty field map. -/
theorem tagIgnoreSubstringWitness :
    stringContains "noignore" "ignore" = true ∧
    collectStructFieldsTagged 0 (.fcons "A" (some "noignore") false .tint .fnil)
      [] [] = [] := by
  refine ⟨by decide, ?_⟩
  rw [tagIgnoreSubstring "noignore" (by decide) 0 "A" false .tint .fnil [] []]
  rfl

/-- C6: resolving a struct's fields is equivalent to flattening the
declared fields in declaration order, with an embedded (anonymous)
struct field's own fields collected recursively and merged into the
same flat map, and looking up the last occurrence of a name: on any
field-name collision the later-declared field overwrites the earlier
one, with no ambiguity error. -/
theorem collectFieldsFlattenLastWins (flds : Fields) (k : String) :
    svmLookup (collectStructFields 0 flds [] []) k =
      lastFind (flatFields 0 flds []) k := by
  rw [svmLookup_collect]
  rcases h : lastFind (flatFields 0 flds []) k with _ | p <;> simp [h, svmLookup]

/-- C7: mapping a source sequence with no element error yields a fresh
destination sequence of exactly the source's length whose element at
each position is the recursive mapping of the source element at that
position, processed in order (first conjunct); the first element error
aborts the remaining elements and is returned (second conjunct). -/
theorem mapSliceLengthAndOrder (mv : Val → Val → Val × Option MapErr)
    (dt st : Ty) (des : List Val) :
    (∀ ses, (∀ x ∈ ses, (mv (zeroVal dt) x).2 = none) →
      mapSlice mv (.vslice dt des) (.vslice st ses) =
        (.vslice dt (ses.map (fun x => (mv (zeroVal dt) x).1)), none) ∧
      (ses.map (fun x => (mv (zeroVal dt) x).1)).length = ses.length) ∧
    (∀ pre s rest d e, (∀ x ∈ pre, (mv (zeroVal dt) x).2 = none) →
      mv (zeroVal dt) s = (d, some e) →
      (mapSlice mv (.vslice dt des) (.vslice st (pre ++ s :: rest))).2 = some e) := by
  constructor
  · intro ses h
    refine ⟨?_, by simp⟩
    simp [mapSlice, mapSliceLoop_ok mv dt ses h]
  · intro pre s rest d e hpre hs
    simp [mapSlice, mapSliceLoop_err mv dt pre s rest d e hpre hs]

/-- Witness for C7: mapping the int sequence [1, 2] succeeds
elementwise in order, and a failing second element (a string into an
int slot) aborts with exactly that element's error. -/
theorem mapSliceLengthAndOrderWitness :
    mapSlice (mapValue 1 emptyMapper) (.vslice .tint [])
      (.vslice .tint [.vint 1, .vint 2]) =
      (.vslice .tint [.vint 1, .vint 2], none) ∧
    (mapSlice (mapValue 1 emptyMapper) (.vslice .tint [])
      (.vslice .tint [.vint 1, .vstr "b"])).2 =
      some (.noValidMapping .tint .tstr) := by
  constructor
  · exact (((mapSliceLengthAndOrder (mapValue 1 emptyMapper) .tint .tint []).1
      [.vint 1, .vint 2] (by intro x hx; fin_cases hx <;> rfl)).1).trans rfl
  · exact (mapSliceLengthAndOrder (mapValue 1 emptyMapper) .tint .tint []).2
      [.vint 1] (.vstr "b") [] (.vint 0) (.noValidMapping .tint .tstr)
      (by intro x hx; fin_cases hx; rfl) rfl

/-- Counterexample for C10: when element i of a sequence mapping fails,
the failing element itself does not necessarily hold a zero value.
Mapping `[][]string{{"a"}}` into `[][]int` fails on element 0, but the
inner element mapping has already replaced that element with a freshly
allocated length-1 int slice, which differs from the zero value (a nil
slice) of the element type. -/
theorem sliceErrorPartialElem :
    mapValue 3 emptyMapper (.vslice (.tslice .tint) [])
      (.vslice (.tslice .tstr) [.vslice .tstr [.vstr "a"]]) =
      (.vslice (.tslice .tint) [.vslice .tint [.vint 0]],
        some (.noValidMapping .tint .tstr)) ∧
    Val.vslice .tint [.vint 0] ≠ zeroVal (.tslice .tint) := by
  exact ⟨rfl, by simp [zeroVal]⟩

/-- C10 (amended): mapping is not atomic on error.  When element i of a
source sequence fails, the destination has already been replaced by a
freshly allocated sequence of the full source length in which elements
before i hold their mapped values, element i holds whatever partial
state the failed element mapping left behind (its zero value when the
failing call never wrote it), and elements after i hold zero values;
the destination's prior contents are not restored. -/
theorem sliceErrorPartialState (mv : Val → Val → Val × Option MapErr)
    (dt st : Ty) (des pre : List Val) (s : Val) (rest : List Val) (d : Val)
    (e : MapErr)
    (hpre : ∀ x ∈ pre, (mv (zeroVal dt) x).2 = none)
    (hs : mv (zeroVal dt) s = (d, some e)) :
    mapSlice mv (.vslice dt des) (.vslice st (pre ++ s :: rest)) =
      (.vslice dt (pre.map (fun x => (mv (zeroVal dt) x).1) ++
        d :: rest.map (fun _ => zeroVal dt)), some e) ∧
    (pre.map (fun x => (mv (zeroVal dt) x).1) ++
      d :: rest.map (fun _ => zeroVal dt)).length = (pre ++ s :: rest).length := by
  refine ⟨?_, by simp⟩
  simp [mapSlice, mapSliceLoop_err mv dt pre s rest d e hpre hs]

/-- Witness for C10 (amended): mapping `[][]string{{"a"}, {}}` into
`[][]int` fails on element 0; the destination is the full-length fresh
sequence whose element 0 holds the partially written inner slice and
whose element 1 holds the element type's zero value. -/
theorem sliceErrorPartialStateWitness :
    mapSlice (mapValue 2 emptyMapper) (.vslice (.tslice .tint) [])
      (.vslice (.tslice .tstr) [.vslice .tstr [.vstr "a"], .vslice .tstr []]) =
      (.vslice (.tslice .tint) [.vslice .tint [.vint 0], .vslice .tint []],
        some (.noValidMapping .tint .tstr)) := by
  exact ((sliceErrorPartialState (mapValue 2 emptyMapper) (.tslice .tint)
    (.tslice .tstr) [] [] (.vslice .tstr [.vstr "a"]) [.vslice .tstr []]
    (.vslice .tint [.vint 0]) (.noValidMapping .tint .tstr)
    (by simp) rfl).1).trans rfl

/-- C4: with a sequence destination and a map source, Map→Sequence is
attempted first and its success stands (first conjunct); on a failure
that is not the no-valid-mapping error, or when the source map's value
kind is not a sequence, its error is surfaced unchanged (second
conjunct); on the specific no-valid-mapping failure with a
sequence-valued source map, the Map-of-Sequences→Sequence flatten
fallback runs, its success standing as the result (third conjunct) and
its failure reverting to the original Map→Sequence error, never the
fallback's own (fourth conjunct); a successful flatten always yields a
destination of length the sum of the inner sequence lengths (fifth
conjunct). -/
theorem mapToSliceFallback (mv : Val → Val → Val × Option MapErr)
    (dt sk st : Ty) (des : List Val) (se : List (Val × Val)) :
    (∀ d1, mapMapToSlice mv (.vslice dt des) (.vmap sk st se) = (d1, none) →
      dispatchTail mv (.vslice dt des) (.vmap sk st se) = (d1, none)) ∧
    (∀ d1 e, mapMapToSlice mv (.vslice dt des) (.vmap sk st se) = (d1, some e) →
      (isNoValidMapping e = false ∨ Ty.kind st ≠ Kind.sliceK) →
      dispatchTail mv (.vslice dt des) (.vmap sk st se) = (d1, some e)) ∧
    (∀ d1 e d2, mapMapToSlice mv (.vslice dt des) (.vmap sk st se) = (d1, some e) →
      isNoValidMapping e = true → Ty.kind st = Kind.sliceK →
      mapMapSlicesToSlice mv d1 (.vmap sk st se) = (d2, none) →
      dispatchTail mv (.vslice dt des) (.vmap sk st se) = (d2, none)) ∧
    (∀ d1 e d2 e2,
      mapMapToSlice mv (.vslice dt des) (.vmap sk st se) = (d1, some e) →
      isNoValidMapping e = true → Ty.kind st = Kind.sliceK →
      mapMapSlicesToSlice mv d1 (.vmap sk st se) = (d2, some e2) →
      dispatchTail mv (.vslice dt des) (.vmap sk st se) = (d2, some e)) ∧
    (∀ des0 ds,
      mapMapSlicesToSlice mv (.vslice dt des0) (.vmap sk st se) =
        (.vslice dt ds, none) →
      ds.length = (se.map (fun kv => (sliceElems kv.2).length)).sum) := by
  refine ⟨?_, ?_, ?_, ?_, ?_⟩
  · intro d1 h
    simp [dispatchTail, h]
  · intro d1 e h hcond
    rcases hcond with hc | hc <;> simp [dispatchTail, h, hc]
  · intro d1 e d2 h hnvm hkind hflat
    simp [dispatchTail, h, hnvm, hkind, hflat]
  · intro d1 e d2 e2 h hnvm hkind hflat
    simp [dispatchTail, h, hnvm, hkind, hflat]
  · intro des0 ds h
    have hlen := mapSliceLoop_length mv dt ((se.map fun kv => sliceElems kv.2).flatten)
    simp only [mapMapSlicesToSlice] at h
    rcases h2 : mapSliceLoop mv dt ((se.map fun kv => sliceElems kv.2).flatten)
      with ⟨ds0, e?⟩
    rw [h2] at h hlen
    simp only at h hlen
    injection h with hA hB
    injection hA with hdt hds
    subst hds
    rw [hlen, List.length_flatten, List.map_map]
    rfl

/-- Witness for C4: mapping `map[string][]int{"k": {1, 2}}` into `[]int`
fails Map→Sequence with the no-valid-mapping error (an []int value
cannot map into an int slot), the source map's value kind is a
sequence, and the flatten fallback succeeds, yielding the concatenated
elements, of length the sum (2) of the inner lengths. -/
theorem mapToSliceFallbackWitness :
    mapMapToSlice (mapValue 1 emptyMapper) (.vslice .tint [])
      (.vmap .tstr (.tslice .tint) [(.vstr "k", .vslice .tint [.vint 1, .vint 2])]) =
      (.vslice .tint [.vint 0], some (.noValidMapping .tint (.tslice .tint))) ∧
    dispatchTail (mapValue 1 emptyMapper) (.vslice .tint [])
      (.vmap .tstr (.tslice .tint) [(.vstr "k", .vslice .tint [.vint 1, .vint 2])]) =
      (.vslice .tint [.vint 1, .vint 2], none) ∧
    ([Val.vint 1, Val.vint 2] : List Val).length =
      (([(Val.vstr "k", Val.vslice .tint [.vint 1, .vint 2])] :
        List (Val × Val)).map (fun kv => (sliceElems kv.2).length)).sum := by
  refine ⟨rfl, ?_, ?_⟩
  · exact (mapToSliceFallback (mapValue 1 emptyMapper) .tint .tstr (.tslice .tint)
      [] [(.vstr "k", .vslice .tint [.vint 1, .vint 2])]).2.2.1
      (.vslice .tint [.vint 0]) (.noValidMapping .tint (.tslice .tint))
      (.vslice .tint [.vint 1, .vint 2]) rfl rfl rfl rfl
  · exact (mapToSliceFallback (mapValue 1 emptyMapper) .tint .tstr (.tslice .tint)
      [] [(.vstr "k", .vslice .tint [.vint 1, .vint 2])]).2.2.2.2
      [.vint 0] [.vint 1, .vint 2] rfl

end Dto
